import Mathlib

/-!
# classic-snake: the game-state update of `main.go`

A shallow embedding of the game logic of `src/main.go`: the constants, the
`Head` / `Body` / `Food` records, `createFood`, `createHead`, the methods of
`Head` (`hasEaten`, `grow`, `collision`, `inside`, `update`) and the body of the
loop in `run` (input handling followed by the alive / dead branch).

Modelling decisions.

* Coordinates are `float64` in the source.  Every coordinate the program
  computes is an integer of small magnitude (a multiple of 16 inside the
  window, or one of the initial segments 61, 58, 55), on which `float64`
  arithmetic and comparison are exact; coordinates are therefore `Int`.
  `createHead` is the one function studied here at arbitrary arguments: its
  `int` product and its `float64` conversion and subtraction are modelled with
  their wraparound (`wrapInt64`) and their rounding (`roundF64`).
* `container/list` is a `List` whose first element is `Front()`; `PushBack`
  appends at the end and `Remove(Front())` drops the first element.
* `head.size` is a Go `int`.  It is only ever incremented by `grow`, once per
  food eaten, and the list of segments (which is held in memory) is one longer
  than it, so it stays far below `2^63`; it is an unbounded `Int` here.
* `math/rand` is an explicit finite sequence of samples: one sample is the
  pair of results of the two successive `rand.Intn` calls of one iteration of
  the loop in `createFood`.  A run of `createFood` that has not left its loop
  when the sequence is exhausted yields `none`.
* Rendering (`draw`, `displayText`, the sprite, the window) and the `Printf` in
  `update` do not touch the game state and are left out.  The Escape key only
  sets the closed flag of the window, which ends the loop.
-/

namespace Snake

/-- Cell size, `size float64 = 16`. -/
def size : Int := 16

/-- Constant `speed float64 = 16` (declared, never used by the logic). -/
def speed : Int := 16

/-- Constant `minX float64 = 0`. -/
def minX : Int := 0

/-- Constant `minY float64 = 0`. -/
def minY : Int := 0

/-- Constant `maxX float64 = 1024`. -/
def maxX : Int := 1024

/-- Constant `maxY float64 = 768`. -/
def maxY : Int := 768

/-- The type `Direction` with its four constants. -/
inductive Direction where
  | UP
  | DOWN
  | LEFT
  | RIGHT
  deriving DecidableEq

open Direction

/-- The struct `Body`; `createBody` leaves `d` at its zero value `UP`. -/
structure Body where
  x : Int
  y : Int
  d : Direction
  deriving DecidableEq

/-- The struct `Head`; `bodies` is listed from `Front()` (oldest) to `Back()`. -/
structure Head where
  x : Int
  y : Int
  d : Direction
  bodies : List Body
  size : Int
  deriving DecidableEq

/-- The struct `Food` (without its sprite). -/
structure Food where
  x : Int
  y : Int
  deriving DecidableEq

/-- One iteration worth of randomness in `createFood`: `i` is the result of
`rand.Intn(int(maxX/size))` and `j` the result of `rand.Intn(int(maxY/size))`. -/
structure Sample where
  i : Nat
  j : Nat
  deriving DecidableEq

/-- The contract of `rand.Intn`: `0 <= i < int(maxX/size) = 64` and
`0 <= j < int(maxY/size) = 48`. -/
def Sample.valid (s : Sample) : Prop :=
  (s.i : Int) < Snake.maxX / Snake.size ∧ (s.j : Int) < Snake.maxY / Snake.size

instance (s : Sample) : Decidable s.valid := by
  unfold Sample.valid
  exact inferInstance

/-- Function `createBody`. -/
def createBody (x y : Int) : Body :=
  { x := x, y := y, d := UP }

/-- Method `Head.collision`: linear scan of the segments from the front. -/
def collisionFrom (x y : Int) : List Body → Bool
  | [] => false
  | body :: rest =>
    if body.x = x ∧ body.y = y then true else collisionFrom x y rest

/-- Method `Head.collision`. -/
def Head.collision (head : Head) (x y : Int) : Bool :=
  collisionFrom x y head.bodies

/-- Method `Head.inside`. -/
def Head.inside (head : Head) (x y : Int) : Bool :=
  if head.x = x ∧ head.y = y then true else head.collision x y

/-- Method `Head.hasEaten`. -/
def Head.hasEaten (head : Head) (food : Food) : Bool :=
  if head.x = food.x ∧ head.y = food.y then true else false

/-- The loop of `createFood`, entered with the current candidate `(x, y)`: while
`head.inside(x, y) || (x < 0 && y < 0)` holds, the next sample replaces the
candidate; `none` when the samples run out before the loop is left. -/
def createFoodLoop (head : Head) : Int → Int → List Sample → Option Food
  | x, y, [] =>
    if head.inside x y || (decide (x < 0) && decide (y < 0)) then none
    else some { x := x, y := y }
  | x, y, s :: rest =>
    if head.inside x y || (decide (x < 0) && decide (y < 0)) then
      createFoodLoop head ((s.i : Int) * Snake.size) ((s.j : Int) * Snake.size) rest
    else some { x := x, y := y }

/-- Function `createFood`: the loop started at the placeholder `(-1, -1)`. -/
def createFood (head : Head) (rnd : List Sample) : Option Food :=
  createFoodLoop head (-1) (-1) rnd

/-- Arithmetic of the Go type `int` (64 bits, two's complement): the result of
an operation whose exact value is `v`. -/
def wrapInt64 (v : Int) : Int :=
  (v + 9223372036854775808) % 18446744073709551616 - 9223372036854775808

/-- The least of `u`, `2u`, `4u`, ... (at most `fuel` doublings) that leaves a
quotient of `a` below `2^53`: the spacing of the `float64` values around `a`. -/
def ulpFrom : Nat → Nat → Nat → Nat
  | 0, u, _ => u
  | fuel + 1, u, a => if a / u < 9007199254740992 then u else ulpFrom fuel (2 * u) a

/-- The `float64` nearest to the integer `v`, ties to the even significand, for
`v` within the range of `float64` (below `2^1024` in magnitude): integers up to
`2^53` in magnitude are exact, a larger one keeps 53 significant bits. -/
def roundF64 (v : Int) : Int :=
  let a := v.natAbs
  if a ≤ 9007199254740992 then v
  else
    let u := ulpFrom 1024 1 a
    let q := a / u
    let r := a % u
    let q := if 2 * r > u ∨ (2 * r = u ∧ q % 2 = 1) then q + 1 else q
    if v < 0 then -((q * u : Nat) : Int) else ((q * u : Nat) : Int)

/-- The segments pushed by the loop of `createHead` for `i = i0, ..., i0 + n - 1`,
each at `x - float64(i*size)`; the parameter `size` of `createHead` shadows the
cell size. -/
def createHeadBodies (x y : Int) (size : Int) : Nat → Nat → List Body
  | _, 0 => []
  | i0, n + 1 =>
    createBody (roundF64 (x - roundF64 (wrapInt64 ((i0 : Int) * size)))) y
      :: createHeadBodies x y size (i0 + 1) n

/-- Function `createHead`: the loop `for i := 0; i <= size; i++` runs
`size + 1` times when `size >= 0` and not at all otherwise. -/
def createHead (x y : Int) (size : Int) : Head :=
  { x := x
    y := y
    d := RIGHT
    bodies := createHeadBodies x y size 0 (size + 1).toNat
    size := size }

/-- Method `Head.grow`. -/
def Head.grow (head : Head) : Head :=
  { head with
    size := head.size + 1
    bodies := head.bodies ++ [createBody head.x head.y] }

/-- The `switch head.d` of `Head.update`: the head position after the move. -/
def Head.move (head : Head) : Int × Int :=
  match head.d with
  | UP =>
    let y := head.y + Snake.size
    if y ≥ Snake.maxY then (head.x, Snake.minY) else (head.x, y)
  | RIGHT =>
    let x := head.x + Snake.size
    if x ≥ Snake.maxX then (Snake.minX, head.y) else (x, head.y)
  | DOWN =>
    let y := head.y - Snake.size
    if y < Snake.minY then (head.x, Snake.maxY - Snake.size) else (head.x, y)
  | LEFT =>
    let x := head.x - Snake.size
    if x < Snake.minX then (Snake.maxX - Snake.size, head.y) else (x, head.y)

/-- Method `Head.update`: push a segment at the current position, move, then
remove the front segment. -/
def Head.update (head : Head) : Head :=
  { head with
    x := head.move.1
    y := head.move.2
    bodies := (head.bodies ++ [createBody head.x head.y]).tail }

/-- The arrow keys reported by `win.JustPressed` in one input poll. -/
structure Keys where
  up : Bool
  down : Bool
  left : Bool
  right : Bool
  deriving DecidableEq

/-- The four consecutive `JustPressed` checks of `run`, each reading the
direction left by the previous one. -/
def handleInput (d : Direction) (k : Keys) : Direction :=
  let d := if k.up then (if d ≠ DOWN then UP else d) else d
  let d := if k.down then (if d ≠ UP then DOWN else d) else d
  let d := if k.left then (if d ≠ RIGHT then LEFT else d) else d
  let d := if k.right then (if d ≠ LEFT then RIGHT else d) else d
  d

/-- The variables of `run` that make up the game state. -/
structure Game where
  head : Head
  food : Food
  alive : Bool
  deriving DecidableEq

/-- The head after the input handling of one iteration of the loop. -/
def Head.turn (head : Head) (k : Keys) : Head :=
  { head with d := handleInput head.d k }

/-- One iteration of the loop in `run`: input handling, then, if alive,
`update` followed by the eat / collision branch.  `none` when `createFood` does
not leave its loop on the samples `rnd`. -/
def tick (g : Game) (k : Keys) (rnd : List Sample) : Option Game :=
  let head := g.head.turn k
  if g.alive then
    let head := head.update
    if head.hasEaten g.food then
      let head := head.grow
      match createFood head rnd with
      | some food => some { head := head, food := food, alive := true }
      | none => none
    else if head.collision head.x head.y then
      some { head := head, food := g.food, alive := false }
    else
      some { head := head, food := g.food, alive := true }
  else
    some { head := head, food := g.food, alive := false }

/-- The states of `run`: the state before the first iteration, for a run of
`createFood` that returns, and every state one iteration later. -/
inductive Reachable : Game → Prop where
  | init (rnd : List Sample) (food : Food)
      (h : createFood (createHead 64 64 3) rnd = some food) :
      Reachable { head := createHead 64 64 3, food := food, alive := true }
  | step (g g' : Game) (k : Keys) (rnd : List Sample)
      (hg : Reachable g) (h : tick g k rnd = some g') : Reachable g'

/-- The direct reversal of a direction. -/
def Direction.reversal : Direction → Direction
  | UP => DOWN
  | DOWN => UP
  | LEFT => RIGHT
  | RIGHT => LEFT

/-- No arrow key pressed. -/
def noKeys : Keys :=
  { up := false, down := false, left := false, right := false }

/-- The direction an arrow key asks for. -/
def keyOf : Direction → Keys
  | UP => { noKeys with up := true }
  | DOWN => { noKeys with down := true }
  | LEFT => { noKeys with left := true }
  | RIGHT => { noKeys with right := true }

/-- Window bounds: `0 <= x < maxX` and `0 <= y < maxY`. -/
def Head.inBounds (head : Head) : Prop :=
  Snake.minX ≤ head.x ∧ head.x < Snake.maxX ∧ Snake.minY ≤ head.y ∧ head.y < Snake.maxY

instance (head : Head) : Decidable head.inBounds := by
  unfold Head.inBounds
  exact inferInstance

/-- The state of `run` before the first iteration when the first sample is
`(0, 0)`: the food is at `(0, 0)`. -/
def game0 : Game :=
  { head := createHead 64 64 3, food := { x := 0, y := 0 }, alive := true }

/-- The state three iterations after `game0` with no key, then Up, then Left. -/
def game3 : Game :=
  { head :=
      { x := 64
        y := 80
        d := LEFT
        bodies := [createBody 55 64, createBody 64 64, createBody 80 64, createBody 80 80]
        size := 3 }
    food := { x := 0, y := 0 }
    alive := true }

/-- The state of `run` before the first iteration when the first sample is
`(5, 4)`: the food is at `(80, 64)`, the cell right of the head. -/
def gameEat : Game :=
  { head := createHead 64 64 3, food := { x := 80, y := 64 }, alive := true }

/-- The state one iteration after `game3` with Down pressed: the head has come
back to `(64, 64)`, where a segment lies, and the game is over. -/
def gameDead : Game :=
  { head :=
      { x := 64
        y := 64
        d := DOWN
        bodies := [createBody 64 64, createBody 80 64, createBody 80 80, createBody 64 80]
        size := 3 }
    food := { x := 0, y := 0 }
    alive := false }

/-- Successive iterations of the loop in `run`, one pair of key poll and
samples per iteration; `none` when some `createFood` does not return. -/
def ticks (g : Game) : List (Keys × List Sample) → Option Game
  | [] => some g
  | (k, rnd) :: rest =>
    match tick g k rnd with
    | some g' => ticks g' rest
    | none => none

/-- Grid alignment: both coordinates are multiples of the cell size. -/
def Head.aligned (head : Head) : Prop :=
  head.x % Snake.size = 0 ∧ head.y % Snake.size = 0

instance (head : Head) : Decidable head.aligned := by
  unfold Head.aligned
  exact inferInstance

/-- The cell a sample names: `(float64(i) * size, float64(j) * size)`. -/
def Sample.cell (s : Sample) : Food :=
  { x := (s.i : Int) * Snake.size, y := (s.j : Int) * Snake.size }

/-- A cell is occupied when the head or some segment is at it. -/
def Head.occupies (head : Head) (x y : Int) : Prop :=
  (head.x = x ∧ head.y = y) ∨ ∃ b ∈ head.bodies, b.x = x ∧ b.y = y

instance (head : Head) (x y : Int) : Decidable (head.occupies x y) := by
  unfold Head.occupies
  exact inferInstance

/-- Rejection sampling as the specification words it: the cell of the first
sample in the sequence that is not occupied by the head or a segment. -/
def firstFreeCell (head : Head) (rnd : List Sample) : Option Food :=
  (rnd.find? (fun s => decide (¬ head.occupies s.cell.x s.cell.y))).map Sample.cell

/-- The call `l.Remove(l.Front())` of `container/list`: `Front()` is nil on an
empty list and removing it fails; `none` stands for that failure. -/
def removeFront : List Body → Option (List Body)
  | [] => none
  | _ :: rest => some rest

/-- Method `Head.update` with the failure of `Remove` on an empty list made
explicit. -/
def Head.updateChecked (head : Head) : Option Head :=
  match removeFront (head.bodies ++ [createBody head.x head.y]) with
  | some bodies =>
    some { head with x := head.move.1, y := head.move.2, bodies := bodies }
  | none => none

/-- A call on the head: `update`, `grow`, or the input handling of `run`. -/
inductive Op where
  | update
  | grow
  | turn (k : Keys)
  deriving DecidableEq

/-- The head after one call. -/
def Op.apply (head : Head) : Op → Head
  | Op.update => head.update
  | Op.grow => head.grow
  | Op.turn k => head.turn k

/-- The head after a sequence of calls, first call first. -/
def applyOps (head : Head) (ops : List Op) : Head :=
  ops.foldl Op.apply head

/-! ## Lemmas on the scans and on `createFood` -/

theorem collisionFrom_eq_true_iff (x y : Int) (bs : List Body) :
    collisionFrom x y bs = true ↔ ∃ b ∈ bs, b.x = x ∧ b.y = y := by
  induction bs with
  | nil => simp [collisionFrom]
  | cons b rest ih =>
    by_cases hb : b.x = x ∧ b.y = y
    · simp [collisionFrom, hb]
    · simp only [collisionFrom, hb, if_false, ih, List.mem_cons, exists_eq_or_imp, false_or]

theorem collisionFrom_eq_false_iff (x y : Int) (bs : List Body) :
    collisionFrom x y bs = false ↔ ∀ b ∈ bs, ¬ (b.x = x ∧ b.y = y) := by
  rw [← Bool.not_eq_true, collisionFrom_eq_true_iff]
  push_neg
  rfl

theorem inside_eq_false_iff (head : Head) (x y : Int) :
    head.inside x y = false ↔
      ¬ (head.x = x ∧ head.y = y) ∧ ∀ b ∈ head.bodies, ¬ (b.x = x ∧ b.y = y) := by
  unfold Head.inside Head.collision
  by_cases hp : head.x = x ∧ head.y = y
  · simp [hp]
  · simp only [hp, if_false, collisionFrom_eq_false_iff, not_false_eq_true, true_and]

theorem createFoodLoop_not_inside (head : Head) (rnd : List Sample) :
    ∀ (x y : Int) (food : Food),
      createFoodLoop head x y rnd = some food → head.inside food.x food.y = false := by
  induction rnd with
  | nil =>
    intro x y food h
    unfold createFoodLoop at h
    split at h
    · exact absurd h (by simp)
    · rename_i hc
      have hf : food = { x := x, y := y } := by
        injection h with h
        exact h.symm
      subst hf
      simp only [Bool.or_eq_true, not_or, Bool.not_eq_true] at hc
      exact hc.1
  | cons s rest ih =>
    intro x y food h
    unfold createFoodLoop at h
    split at h
    · exact ih _ _ food h
    · rename_i hc
      have hf : food = { x := x, y := y } := by
        injection h with h
        exact h.symm
      subst hf
      simp only [Bool.or_eq_true, not_or, Bool.not_eq_true] at hc
      exact hc.1

theorem createFood_not_inside (head : Head) (rnd : List Sample) (food : Food)
    (h : createFood head rnd = some food) : head.inside food.x food.y = false :=
  createFoodLoop_not_inside head rnd _ _ food h

theorem mem_update_bodies (head : Head) (b : Body) (hb : b ∈ head.update.bodies) :
    b ∈ head.bodies ∨ b = createBody head.x head.y := by
  have h := List.mem_of_mem_tail hb
  simpa using h

/-! ## The three outcomes of an alive iteration -/

theorem tick_dead (g : Game) (k : Keys) (rnd : List Sample) (ha : g.alive = false) :
    tick g k rnd = some { head := g.head.turn k, food := g.food, alive := false } := by
  simp [tick, ha]

theorem tick_eat (g : Game) (k : Keys) (rnd : List Sample) (ha : g.alive = true)
    (he : (g.head.turn k).update.hasEaten g.food = true) :
    tick g k rnd =
      (createFood (g.head.turn k).update.grow rnd).map
        (fun food => { head := (g.head.turn k).update.grow, food := food, alive := true }) := by
  simp only [tick, ha, he, if_true]
  cases createFood (g.head.turn k).update.grow rnd <;> rfl

theorem tick_collide (g : Game) (k : Keys) (rnd : List Sample) (ha : g.alive = true)
    (he : (g.head.turn k).update.hasEaten g.food = false)
    (hc : (g.head.turn k).update.collision (g.head.turn k).update.x
      (g.head.turn k).update.y = true) :
    tick g k rnd = some { head := (g.head.turn k).update, food := g.food, alive := false } := by
  simp [tick, ha, he, hc]

theorem tick_move (g : Game) (k : Keys) (rnd : List Sample) (ha : g.alive = true)
    (he : (g.head.turn k).update.hasEaten g.food = false)
    (hc : (g.head.turn k).update.collision (g.head.turn k).update.x
      (g.head.turn k).update.y = false) :
    tick g k rnd = some { head := (g.head.turn k).update, food := g.food, alive := true } := by
  simp [tick, ha, he, hc]

theorem hasEaten_eq_true_iff (head : Head) (food : Food) :
    head.hasEaten food = true ↔ head.x = food.x ∧ head.y = food.y := by
  simp [Head.hasEaten]

theorem hasEaten_eq_false_iff (head : Head) (food : Food) :
    head.hasEaten food = false ↔ ¬ (head.x = food.x ∧ head.y = food.y) := by
  simp [Head.hasEaten]

/-- After `update`, a cell that was free of the snake and is not the new head
position is still free. -/
theorem inside_update_of_not_inside (head : Head) (x y : Int)
    (hfree : head.inside x y = false) (hne : ¬ (head.update.x = x ∧ head.update.y = y)) :
    head.update.inside x y = false := by
  rw [inside_eq_false_iff] at hfree ⊢
  refine ⟨hne, ?_⟩
  intro b hb
  rcases mem_update_bodies head b hb with hb | hb
  · exact hfree.2 b hb
  · subst hb
    exact hfree.1

/-- After `update`, a cell that was free of the snake holds no segment. -/
theorem collision_update_of_not_inside (head : Head) (x y : Int)
    (hfree : head.inside x y = false) : head.update.collision x y = false := by
  rw [inside_eq_false_iff] at hfree
  unfold Head.collision
  rw [collisionFrom_eq_false_iff]
  intro b hb
  rcases mem_update_bodies head b hb with hb | hb
  · exact hfree.2 b hb
  · subst hb
    exact hfree.1

theorem inside_turn (head : Head) (k : Keys) (x y : Int) :
    (head.turn k).inside x y = head.inside x y := rfl

/-- One iteration keeps the food off the snake. -/
theorem tick_food_free (g g' : Game) (k : Keys) (rnd : List Sample)
    (hfree : g.head.inside g.food.x g.food.y = false) (h : tick g k rnd = some g') :
    g'.head.inside g'.food.x g'.food.y = false := by
  cases ha : g.alive with
  | false =>
    rw [tick_dead g k rnd ha] at h
    injection h with h
    subst h
    exact hfree
  | true =>
    cases he : (g.head.turn k).update.hasEaten g.food with
    | true =>
      rw [tick_eat g k rnd ha he] at h
      cases hf : createFood (g.head.turn k).update.grow rnd with
      | none => simp [hf] at h
      | some food =>
        simp only [hf, Option.map_some'] at h
        injection h with h
        subst h
        exact createFood_not_inside _ rnd food hf
    | false =>
      have hne := (hasEaten_eq_false_iff _ _).1 he
      have hin : (g.head.turn k).update.inside g.food.x g.food.y = false :=
        inside_update_of_not_inside (g.head.turn k) _ _ hfree hne
      cases hc : (g.head.turn k).update.collision (g.head.turn k).update.x
          (g.head.turn k).update.y with
      | true =>
        rw [tick_collide g k rnd ha he hc] at h
        injection h with h
        subst h
        exact hin
      | false =>
        rw [tick_move g k rnd ha he hc] at h
        injection h with h
        subst h
        exact hin

/-- At every state of `run` the food is off the snake. -/
theorem reachable_food_free (g : Game) (hr : Reachable g) :
    g.head.inside g.food.x g.food.y = false := by
  induction hr with
  | init rnd food h => exact createFood_not_inside _ rnd food h
  | step g g' k rnd _ h ih => exact tick_food_free g g' k rnd ih h

theorem reachable_game0 : Reachable game0 :=
  Reachable.init [⟨0, 0⟩] ⟨0, 0⟩ (by decide)

theorem reachable_gameEat : Reachable gameEat :=
  Reachable.init [⟨5, 4⟩] ⟨80, 64⟩ (by decide)

theorem reachable_game3 : Reachable game3 := by
  have h1 := Reachable.step game0 _ noKeys [] reachable_game0 (by decide :
    tick game0 noKeys [] = some
      { head := { x := 80, y := 64, d := RIGHT,
                  bodies := [createBody 61 64, createBody 58 64, createBody 55 64,
                    createBody 64 64], size := 3 }
        food := { x := 0, y := 0 }, alive := true })
  have h2 := Reachable.step _ _ (keyOf UP) [] h1 (by decide :
    tick _ (keyOf UP) [] = some
      { head := { x := 80, y := 80, d := UP,
                  bodies := [createBody 58 64, createBody 55 64, createBody 64 64,
                    createBody 80 64], size := 3 }
        food := { x := 0, y := 0 }, alive := true })
  exact Reachable.step _ _ (keyOf LEFT) [] h2 (by decide : tick _ (keyOf LEFT) [] = some game3)

/-! ## Segment count -/

theorem update_bodies_length (head : Head) :
    head.update.bodies.length = head.bodies.length := by
  simp [Head.update]

theorem grow_bodies_length (head : Head) :
    head.grow.bodies.length = head.bodies.length + 1 := by
  simp [Head.grow]

/-- One iteration keeps the segment count one above `head.size`. -/
theorem tick_count (g g' : Game) (k : Keys) (rnd : List Sample)
    (hn : (g.head.bodies.length : Int) = g.head.size + 1) (h : tick g k rnd = some g') :
    (g'.head.bodies.length : Int) = g'.head.size + 1 := by
  have hu : ((g.head.turn k).update.bodies.length : Int) = (g.head.turn k).update.size + 1 := by
    rw [update_bodies_length]
    exact hn
  cases ha : g.alive with
  | false =>
    rw [tick_dead g k rnd ha] at h
    injection h with h
    subst h
    exact hn
  | true =>
    cases he : (g.head.turn k).update.hasEaten g.food with
    | true =>
      rw [tick_eat g k rnd ha he] at h
      cases hf : createFood (g.head.turn k).update.grow rnd with
      | none => simp [hf] at h
      | some food =>
        simp only [hf, Option.map_some'] at h
        injection h with h
        subst h
        show (((g.head.turn k).update.grow.bodies.length : Nat) : Int)
          = (g.head.turn k).update.grow.size + 1
        rw [grow_bodies_length]
        push_cast
        rw [hu]
        rfl
    | false =>
      cases hc : (g.head.turn k).update.collision (g.head.turn k).update.x
          (g.head.turn k).update.y with
      | true =>
        rw [tick_collide g k rnd ha he hc] at h
        injection h with h
        subst h
        exact hu
      | false =>
        rw [tick_move g k rnd ha he hc] at h
        injection h with h
        subst h
        exact hu

theorem reachable_count (g : Game) (hr : Reachable g) :
    (g.head.bodies.length : Int) = g.head.size + 1 := by
  induction hr with
  | init rnd food h =>
    show ((createHead 64 64 3).bodies.length : Int) = (createHead 64 64 3).size + 1
    decide
  | step g g' k rnd _ h ih => exact tick_count g g' k rnd ih h

/-! ## Termination of `createFood` and the window bounds -/

/-- The loop of `createFood` returns as soon as its candidate passes the test
or some later sample names a cell off the snake. -/
theorem createFoodLoop_returns (head : Head) (rnd : List Sample) :
    ∀ x y : Int,
      ((head.inside x y || (decide (x < 0) && decide (y < 0))) = false ∨
        ∃ s ∈ rnd, head.inside ((s.i : Int) * Snake.size) ((s.j : Int) * Snake.size) = false) →
      ∃ food, createFoodLoop head x y rnd = some food := by
  induction rnd with
  | nil =>
    intro x y h
    rcases h with h | ⟨s, hs, _⟩
    · exact ⟨_, by simp only [createFoodLoop, h]; rfl⟩
    · exact absurd hs (List.not_mem_nil s)
  | cons s rest ih =>
    intro x y h
    cases hc : (head.inside x y || (decide (x < 0) && decide (y < 0))) with
    | false => exact ⟨_, by simp only [createFoodLoop, hc]; rfl⟩
    | true =>
      simp only [createFoodLoop, hc, if_true]
      apply ih
      rcases h with h | ⟨t, ht, hfree⟩
      · rw [hc] at h
        exact absurd h (by simp)
      · rcases List.mem_cons.1 ht with ht | ht
        · subst ht
          left
          have hx : ¬ ((t.i : Int) * Snake.size < 0) := by
            have : (0 : Int) ≤ (t.i : Int) * Snake.size :=
              Int.mul_nonneg (Int.ofNat_nonneg _) (by decide)
            omega
          simp [hfree, hx]
        · exact Or.inr ⟨t, ht, hfree⟩

theorem createFood_returns (head : Head) (rnd : List Sample)
    (h : ∃ s ∈ rnd, head.inside ((s.i : Int) * Snake.size) ((s.j : Int) * Snake.size) = false) :
    ∃ food, createFood head rnd = some food :=
  createFoodLoop_returns head rnd _ _ (Or.inr h)

theorem update_inBounds (head : Head) (h : head.inBounds) : head.update.inBounds := by
  unfold Head.inBounds at h ⊢
  unfold Head.update Head.move
  simp only [Snake.size, Snake.minX, Snake.minY, Snake.maxX, Snake.maxY] at h ⊢
  cases head.d <;> simp only <;> split <;> simp only <;> omega

theorem tick_inBounds (g g' : Game) (k : Keys) (rnd : List Sample)
    (hb : g.head.inBounds) (h : tick g k rnd = some g') : g'.head.inBounds := by
  have hu : (g.head.turn k).update.inBounds := update_inBounds (g.head.turn k) hb
  cases ha : g.alive with
  | false =>
    rw [tick_dead g k rnd ha] at h
    injection h with h
    subst h
    exact hb
  | true =>
    cases he : (g.head.turn k).update.hasEaten g.food with
    | true =>
      rw [tick_eat g k rnd ha he] at h
      cases hf : createFood (g.head.turn k).update.grow rnd with
      | none => simp [hf] at h
      | some food =>
        simp only [hf, Option.map_some'] at h
        injection h with h
        subst h
        exact hu
    | false =>
      cases hc : (g.head.turn k).update.collision (g.head.turn k).update.x
          (g.head.turn k).update.y with
      | true =>
        rw [tick_collide g k rnd ha he hc] at h
        injection h with h
        subst h
        exact hu
      | false =>
        rw [tick_move g k rnd ha he hc] at h
        injection h with h
        subst h
        exact hu

theorem reachable_inBounds (g : Game) (hr : Reachable g) : g.head.inBounds := by
  induction hr with
  | init rnd food h =>
    show (createHead 64 64 3).inBounds
    decide
  | step g g' k rnd _ h ih => exact tick_inBounds g g' k rnd ih h

/-! ## Claims -/

/-- C1: at every alive state reachable from the initial state, an iteration in
which the head position after `update` equals the position of some segment
returns with `alive = false`, and an iteration in which it equals the position
of no segment leaves `alive = true`. -/
theorem C1_self_collision_decides_alive (g : Game) (hr : Reachable g)
    (ha : g.alive = true) (k : Keys) (rnd : List Sample) :
    ((∃ b ∈ (g.head.turn k).update.bodies,
        b.x = (g.head.turn k).update.x ∧ b.y = (g.head.turn k).update.y) →
      ∃ g', tick g k rnd = some g' ∧ g'.alive = false) ∧
    ((∀ b ∈ (g.head.turn k).update.bodies,
        ¬ (b.x = (g.head.turn k).update.x ∧ b.y = (g.head.turn k).update.y)) →
      ∀ g', tick g k rnd = some g' → g'.alive = true) := by
  have hfree : (g.head.turn k).inside g.food.x g.food.y = false := reachable_food_free g hr
  constructor
  · intro hb
    have hc : (g.head.turn k).update.collision (g.head.turn k).update.x
        (g.head.turn k).update.y = true :=
      (collisionFrom_eq_true_iff _ _ _).2 hb
    have he : (g.head.turn k).update.hasEaten g.food = false := by
      cases he : (g.head.turn k).update.hasEaten g.food with
      | false => rfl
      | true =>
        have hp := (hasEaten_eq_true_iff _ _).1 he
        have hn := collision_update_of_not_inside (g.head.turn k) _ _ hfree
        rw [← hp.1, ← hp.2, hc] at hn
        exact absurd hn (by simp)
    exact ⟨_, tick_collide g k rnd ha he hc, rfl⟩
  · intro hb g' h
    have hc : (g.head.turn k).update.collision (g.head.turn k).update.x
        (g.head.turn k).update.y = false :=
      (collisionFrom_eq_false_iff _ _ _).2 hb
    cases he : (g.head.turn k).update.hasEaten g.food with
    | true =>
      rw [tick_eat g k rnd ha he] at h
      cases hf : createFood (g.head.turn k).update.grow rnd with
      | none => simp [hf] at h
      | some food =>
        simp only [hf, Option.map_some'] at h
        injection h with h
        subst h
        rfl
    | false =>
      rw [tick_move g k rnd ha he hc] at h
      injection h with h
      subst h
      rfl

/-- C1 at the state after Right, Up, Left with Down pressed: the head returns to
`(64, 64)`, where a segment lies, and the iteration ends the game. -/
theorem C1_self_collision_decides_alive_witness :
    Reachable game3 ∧ game3.alive = true ∧
      ∃ g', tick game3 (keyOf DOWN) [] = some g' ∧ g'.alive = false :=
  ⟨reachable_game3, rfl,
    (C1_self_collision_decides_alive game3 reachable_game3 rfl (keyOf DOWN) []).1
      ⟨createBody 64 64, by decide, by decide⟩⟩

/-- C2 fails on the code: with direction RIGHT and the keys Up and Left reported
in the same poll, the Up check sets UP and the Left check, reading UP, sets
LEFT, the direct reversal of RIGHT; from the initial state the head then moves
from `(64, 64)` to `(48, 64)`. -/
theorem C2_reversal_with_two_keys :
    handleInput RIGHT { up := true, down := false, left := true, right := false } = LEFT ∧
    handleInput RIGHT { up := true, down := false, left := true, right := false }
      = Direction.reversal RIGHT ∧
    handleInput LEFT { up := true, down := false, left := false, right := true }
      = Direction.reversal LEFT ∧
    (tick game0 { up := true, down := false, left := true, right := false } []).map
      (fun g => (g.head.d, g.head.x, g.head.y)) = some (LEFT, 48, 64) := by
  decide

/-- C3 as stated fails at the initial state: `createHead(64,64,3)` holds four
segments while `head.size` is three. -/
theorem C3_counterexample :
    (createHead 64 64 3).bodies.length = 4 ∧ (createHead 64 64 3).size = 3 ∧
    ((createHead 64 64 3).bodies.length : Int) ≠ (createHead 64 64 3).size := by
  decide

/-- C3 amended: at the initial state `createHead(64,64,3)`, at every state
reachable from it and after every `update` from such a state, the number of
segments in `head.bodies` equals `head.size + 1`. -/
theorem C3_segment_count_is_size_plus_one :
    ((createHead 64 64 3).bodies.length : Int) = (createHead 64 64 3).size + 1 ∧
    ∀ g : Game, Reachable g → ∀ k : Keys,
      (g.head.bodies.length : Int) = g.head.size + 1 ∧
      ((g.head.turn k).update.bodies.length : Int) = (g.head.turn k).update.size + 1 := by
  refine ⟨by decide, ?_⟩
  intro g hr k
  have hn := reachable_count g hr
  refine ⟨hn, ?_⟩
  rw [update_bodies_length]
  exact hn

/-- C3 amended, at the state three iterations into a run. -/
theorem C3_segment_count_is_size_plus_one_witness :
    Reachable game3 ∧ (game3.head.bodies.length : Int) = game3.head.size + 1 ∧
      ((game3.head.turn (keyOf DOWN)).update.bodies.length : Int)
        = (game3.head.turn (keyOf DOWN)).update.size + 1 :=
  ⟨reachable_game3, C3_segment_count_is_size_plus_one.2 game3 reachable_game3 (keyOf DOWN)⟩

/-- C4: at every state reachable from the initial state the food position
differs from the head position and from the position of every segment. -/
theorem C4_food_off_the_snake (g : Game) (hr : Reachable g) :
    ¬ (g.food.x = g.head.x ∧ g.food.y = g.head.y) ∧
    ∀ b ∈ g.head.bodies, ¬ (g.food.x = b.x ∧ g.food.y = b.y) := by
  have h := (inside_eq_false_iff _ _ _).1 (reachable_food_free g hr)
  refine ⟨fun hp => h.1 ⟨hp.1.symm, hp.2.symm⟩, ?_⟩
  intro b hb hp
  exact h.2 b hb ⟨hp.1.symm, hp.2.symm⟩

/-- C4 at the state three iterations into a run. -/
theorem C4_food_off_the_snake_witness :
    Reachable game3 ∧ ¬ (game3.food.x = game3.head.x ∧ game3.food.y = game3.head.y) ∧
      ∀ b ∈ game3.head.bodies, ¬ (game3.food.x = b.x ∧ game3.food.y = b.y) :=
  ⟨reachable_game3, C4_food_off_the_snake game3 reachable_game3⟩

/-- C5: in an alive iteration in which the head position after `update` equals
the food position, every state the iteration returns has `head.size` one above
the size before and a food whose position differs from that of the food eaten,
and the iteration does return once some sample names a cell off the grown
snake; in an alive iteration in which it does not, the iteration returns with
`head.size` and the food unchanged. -/
theorem C5_eating_grows_by_one_and_moves_food (g : Game) (ha : g.alive = true)
    (k : Keys) (rnd : List Sample) :
    (((g.head.turn k).update.x = g.food.x ∧ (g.head.turn k).update.y = g.food.y) →
      (g.head.turn k).update.hasEaten g.food = true ∧
      (∀ g', tick g k rnd = some g' →
        g'.head.size = g.head.size + 1 ∧ ¬ (g'.food.x = g.food.x ∧ g'.food.y = g.food.y)) ∧
      ((∃ s ∈ rnd, (g.head.turn k).update.grow.inside
          ((s.i : Int) * Snake.size) ((s.j : Int) * Snake.size) = false) →
        ∃ g', tick g k rnd = some g')) ∧
    (¬ ((g.head.turn k).update.x = g.food.x ∧ (g.head.turn k).update.y = g.food.y) →
      (g.head.turn k).update.hasEaten g.food = false ∧
      ∃ g', tick g k rnd = some g' ∧ g'.head.size = g.head.size ∧ g'.food = g.food) := by
  constructor
  · intro hp
    have he := (hasEaten_eq_true_iff _ g.food).2 hp
    refine ⟨he, ?_, ?_⟩
    · intro g' h
      rw [tick_eat g k rnd ha he] at h
      cases hf : createFood (g.head.turn k).update.grow rnd with
      | none => simp [hf] at h
      | some food =>
        simp only [hf, Option.map_some'] at h
        injection h with h
        subst h
        refine ⟨rfl, ?_⟩
        have hfree := (inside_eq_false_iff _ _ _).1 (createFood_not_inside _ rnd food hf)
        intro hq
        exact hfree.1 ⟨hp.1.trans hq.1.symm, hp.2.trans hq.2.symm⟩
    · intro hs
      obtain ⟨food, hf⟩ := createFood_returns _ rnd hs
      exact ⟨_, by rw [tick_eat g k rnd ha he, hf]; rfl⟩
  · intro hp
    have he := (hasEaten_eq_false_iff _ g.food).2 hp
    refine ⟨he, ?_⟩
    cases hc : (g.head.turn k).update.collision (g.head.turn k).update.x
        (g.head.turn k).update.y with
    | true => exact ⟨_, tick_collide g k rnd ha he hc, rfl, rfl⟩
    | false => exact ⟨_, tick_move g k rnd ha he hc, rfl, rfl⟩

/-- C5 at the initial state with the food right of the head: the iteration
eats, returns on the sample `(0, 0)`, and the size goes from 3 to 4. -/
theorem C5_eating_grows_by_one_and_moves_food_witness :
    gameEat.alive = true ∧
      (∃ g', tick gameEat noKeys [⟨0, 0⟩] = some g') ∧
      ∀ g', tick gameEat noKeys [⟨0, 0⟩] = some g' →
        g'.head.size = gameEat.head.size + 1 ∧
          ¬ (g'.food.x = gameEat.food.x ∧ g'.food.y = gameEat.food.y) :=
  ⟨rfl,
    ((C5_eating_grows_by_one_and_moves_food gameEat rfl noKeys [⟨0, 0⟩]).1
      (by decide)).2.2 ⟨⟨0, 0⟩, by decide, by decide⟩,
    ((C5_eating_grows_by_one_and_moves_food gameEat rfl noKeys [⟨0, 0⟩]).1
      (by decide)).2.1⟩

/-- C6 as stated fails: from the initial state with the food at `(80, 64)` the
head eats, and the segments afterwards are those before without the oldest
one `(64, 64)`, followed by two new ones, at `(64, 64)` and at `(80, 64)`; they
are not the segments before followed by one new segment at `(64, 64)`. -/
theorem C6_counterexample :
    Reachable gameEat ∧
    (gameEat.head.turn noKeys).update.hasEaten gameEat.food = true ∧
    gameEat.head.bodies
      = [createBody 64 64, createBody 61 64, createBody 58 64, createBody 55 64] ∧
    (tick gameEat noKeys [⟨0, 0⟩]).map (fun g => g.head.bodies)
      = some [createBody 61 64, createBody 58 64, createBody 55 64, createBody 64 64,
          createBody 80 64] ∧
    (tick gameEat noKeys [⟨0, 0⟩]).map (fun g => g.head.bodies)
      ≠ some (gameEat.head.bodies ++ [createBody gameEat.head.x gameEat.head.y]) :=
  ⟨reachable_gameEat, by decide, by decide, by decide, by decide⟩

/-- C6 amended: in an alive iteration in which the head eats the food, `update`
still removes the oldest segment and `grow` appends a second new one: the
segments afterwards are the segments before followed by a new one at the
pre-move head position, with the front one removed, followed by a new one at
the post-move head position; the count grows by exactly one, and the iteration
returns once some sample names a cell off the grown snake. -/
theorem C6_eating_drops_oldest_and_appends_two (g : Game) (ha : g.alive = true)
    (k : Keys) (rnd : List Sample)
    (he : (g.head.turn k).update.hasEaten g.food = true) :
    (∀ g', tick g k rnd = some g' →
      g'.head.bodies
        = (g.head.bodies ++ [createBody g.head.x g.head.y]).tail
            ++ [createBody (g.head.turn k).update.x (g.head.turn k).update.y] ∧
      g'.head.bodies.length = g.head.bodies.length + 1) ∧
    ((∃ s ∈ rnd, (g.head.turn k).update.grow.inside
        ((s.i : Int) * Snake.size) ((s.j : Int) * Snake.size) = false) →
      ∃ g', tick g k rnd = some g') := by
  constructor
  · intro g' h
    rw [tick_eat g k rnd ha he] at h
    cases hf : createFood (g.head.turn k).update.grow rnd with
    | none => simp [hf] at h
    | some food =>
      simp only [hf, Option.map_some'] at h
      injection h with h
      subst h
      refine ⟨rfl, ?_⟩
      show (g.head.turn k).update.grow.bodies.length = g.head.bodies.length + 1
      rw [grow_bodies_length, update_bodies_length]
      rfl
  · intro hs
    obtain ⟨food, hf⟩ := createFood_returns _ rnd hs
    exact ⟨_, by rw [tick_eat g k rnd ha he, hf]; rfl⟩

/-- C6 amended, at the initial state with the food right of the head. -/
theorem C6_eating_drops_oldest_and_appends_two_witness :
    gameEat.alive = true ∧
      (gameEat.head.turn noKeys).update.hasEaten gameEat.food = true ∧
      (∃ g', tick gameEat noKeys [⟨0, 0⟩] = some g') ∧
      ∀ g', tick gameEat noKeys [⟨0, 0⟩] = some g' →
        g'.head.bodies
          = (gameEat.head.bodies ++ [createBody gameEat.head.x gameEat.head.y]).tail
              ++ [createBody (gameEat.head.turn noKeys).update.x
                    (gameEat.head.turn noKeys).update.y] ∧
        g'.head.bodies.length = gameEat.head.bodies.length + 1 :=
  ⟨rfl, by decide,
    (C6_eating_drops_oldest_and_appends_two gameEat rfl noKeys [⟨0, 0⟩] (by decide)).2
      ⟨⟨0, 0⟩, by decide, by decide⟩,
    (C6_eating_drops_oldest_and_appends_two gameEat rfl noKeys [⟨0, 0⟩] (by decide)).1⟩

/-- C7: for every head and every sequence of samples on which `createFood`
returns, the food returned is neither at the head position nor at the position
of any segment: `head.inside(food.x, food.y)` is false. -/
theorem C7_createFood_off_the_snake (head : Head) (rnd : List Sample) (food : Food)
    (h : createFood head rnd = some food) :
    head.inside food.x food.y = false ∧
    ¬ (head.x = food.x ∧ head.y = food.y) ∧
    ∀ b ∈ head.bodies, ¬ (b.x = food.x ∧ b.y = food.y) := by
  have hin := createFood_not_inside head rnd food h
  exact ⟨hin, (inside_eq_false_iff _ _ _).1 hin⟩

/-- C7 for the initial head and the samples `(4, 4)`, `(5, 4)`: the first names
the head cell `(64, 64)` and is rejected, the second gives the food `(80, 64)`. -/
theorem C7_createFood_off_the_snake_witness :
    createFood (createHead 64 64 3) [⟨4, 4⟩, ⟨5, 4⟩] = some ⟨80, 64⟩ ∧
      (createHead 64 64 3).inside 80 64 = false ∧
      ¬ ((createHead 64 64 3).x = 80 ∧ (createHead 64 64 3).y = 64) ∧
      ∀ b ∈ (createHead 64 64 3).bodies, ¬ (b.x = 80 ∧ b.y = 64) :=
  ⟨by decide,
    C7_createFood_off_the_snake (createHead 64 64 3) [⟨4, 4⟩, ⟨5, 4⟩] ⟨80, 64⟩ (by decide)⟩

/-- C8: for every head with `0 <= x < 1024` and `0 <= y < 768` and each of the
four directions, the head position after `update` satisfies the same bounds;
hence the head is within the bounds at every state reachable from
`createHead(64,64,3)`. -/
theorem C8_head_stays_in_bounds :
    (∀ (head : Head) (d : Direction),
      (0 ≤ head.x ∧ head.x < 1024 ∧ 0 ≤ head.y ∧ head.y < 768) →
      0 ≤ ({ head with d := d } : Head).update.x ∧
      ({ head with d := d } : Head).update.x < 1024 ∧
      0 ≤ ({ head with d := d } : Head).update.y ∧
      ({ head with d := d } : Head).update.y < 768) ∧
    (∀ g : Game, Reachable g →
      0 ≤ g.head.x ∧ g.head.x < 1024 ∧ 0 ≤ g.head.y ∧ g.head.y < 768) :=
  ⟨fun head d h => update_inBounds { head with d := d } h,
    fun g hr => reachable_inBounds g hr⟩

/-- C8 at the right edge, `(1008, 64)` moving RIGHT wraps to `(0, 64)`, and at
the state three iterations into a run. -/
theorem C8_head_stays_in_bounds_witness :
    ((({ (createHead 1008 64 3) with d := RIGHT } : Head).update.x = 0) ∧
      0 ≤ ({ (createHead 1008 64 3) with d := RIGHT } : Head).update.x ∧
      ({ (createHead 1008 64 3) with d := RIGHT } : Head).update.x < 1024 ∧
      0 ≤ ({ (createHead 1008 64 3) with d := RIGHT } : Head).update.y ∧
      ({ (createHead 1008 64 3) with d := RIGHT } : Head).update.y < 768) ∧
    (Reachable game3 ∧
      0 ≤ game3.head.x ∧ game3.head.x < 1024 ∧ 0 ≤ game3.head.y ∧ game3.head.y < 768) :=
  ⟨⟨by decide, C8_head_stays_in_bounds.1 (createHead 1008 64 3) RIGHT (by decide)⟩,
    reachable_game3, C8_head_stays_in_bounds.2 game3 reachable_game3⟩

/-- C9: for every head, `update` turns the segments `b` into `b` followed by a
new segment at the pre-move head position, with the front segment removed, so
that the count is unchanged, and leaves `head.size` and `head.d` unchanged; for
`createHead(64,64,3)`, which moves RIGHT, the next head position is `(80, 64)`,
the oldest segment is dropped and the newest segment is at `(64, 64)`. -/
theorem C9_update_pushes_then_pops :
    (∀ head : Head,
      head.update.bodies = (head.bodies ++ [createBody head.x head.y]).tail ∧
      (∀ (o : Body) (rest : List Body),
        ({ head with bodies := o :: rest } : Head).update.bodies
          = rest ++ [createBody head.x head.y]) ∧
      head.update.bodies.length = head.bodies.length ∧
      head.update.size = head.size ∧
      head.update.d = head.d) ∧
    (createHead 64 64 3).d = RIGHT ∧
    ((createHead 64 64 3).update.x, (createHead 64 64 3).update.y) = (80, 64) ∧
    (createHead 64 64 3).bodies
      = [createBody 64 64, createBody 61 64, createBody 58 64, createBody 55 64] ∧
    (createHead 64 64 3).update.bodies
      = [createBody 61 64, createBody 58 64, createBody 55 64, createBody 64 64] ∧
    (createHead 64 64 3).update.bodies.getLast? = some (createBody 64 64) := by
  refine ⟨fun head => ⟨rfl, ?_, update_bodies_length head, rfl, rfl⟩,
    by decide, by decide, by decide, by decide, by decide⟩
  intro o rest
  simp [Head.update]

/-- C10: for every current direction and every arrow key pressed alone in a
poll, the direction after input handling is the current one when the key asks
for its direct reversal, and the direction of the key otherwise. -/
theorem C10_single_key (d key : Direction) :
    handleInput d (keyOf key) = (if key = d.reversal then d else key) ∧
    handleInput RIGHT (keyOf LEFT) = RIGHT ∧
    handleInput UP (keyOf DOWN) = UP := by
  cases d <;> cases key <;> decide

/-! ## The dead state, alignment and wraparound -/

theorem reachable_gameDead : Reachable gameDead :=
  Reachable.step game3 gameDead (keyOf DOWN) [] reachable_game3 (by decide)

/-- From a dead state every sequence of iterations returns, and only `head.d`
can differ afterwards. -/
theorem ticks_dead (inputs : List (Keys × List Sample)) :
    ∀ g : Game, g.alive = false →
      ∃ g', ticks g inputs = some g' ∧ g'.alive = false ∧ g'.head.x = g.head.x ∧
        g'.head.y = g.head.y ∧ g'.head.bodies = g.head.bodies ∧
        g'.head.size = g.head.size ∧ g'.food = g.food := by
  induction inputs with
  | nil =>
    intro g ha
    exact ⟨g, rfl, ha, rfl, rfl, rfl, rfl, rfl⟩
  | cons p rest ih =>
    intro g ha
    obtain ⟨k, rnd⟩ := p
    obtain ⟨g', hg', h1, h2, h3, h4, h5, h6⟩ :=
      ih { head := g.head.turn k, food := g.food, alive := false } rfl
    refine ⟨g', ?_, h1, h2, h3, h4, h5, h6⟩
    simp only [ticks, tick_dead g k rnd ha]
    exact hg'

theorem update_aligned (head : Head) (h : head.aligned) : head.update.aligned := by
  unfold Head.aligned at h ⊢
  unfold Head.update Head.move
  simp only [Snake.size, Snake.minX, Snake.minY, Snake.maxX, Snake.maxY] at h ⊢
  cases head.d <;> simp only <;> split <;> simp only <;> omega

theorem tick_aligned (g g' : Game) (k : Keys) (rnd : List Sample)
    (hb : g.head.aligned) (h : tick g k rnd = some g') : g'.head.aligned := by
  have hu : (g.head.turn k).update.aligned := update_aligned (g.head.turn k) hb
  cases ha : g.alive with
  | false =>
    rw [tick_dead g k rnd ha] at h
    injection h with h
    subst h
    exact hb
  | true =>
    cases he : (g.head.turn k).update.hasEaten g.food with
    | true =>
      rw [tick_eat g k rnd ha he] at h
      cases hf : createFood (g.head.turn k).update.grow rnd with
      | none => simp [hf] at h
      | some food =>
        simp only [hf, Option.map_some'] at h
        injection h with h
        subst h
        exact hu
    | false =>
      cases hc : (g.head.turn k).update.collision (g.head.turn k).update.x
          (g.head.turn k).update.y with
      | true =>
        rw [tick_collide g k rnd ha he hc] at h
        injection h with h
        subst h
        exact hu
      | false =>
        rw [tick_move g k rnd ha he hc] at h
        injection h with h
        subst h
        exact hu

theorem reachable_aligned (g : Game) (hr : Reachable g) : g.head.aligned := by
  induction hr with
  | init rnd food h =>
    show (createHead 64 64 3).aligned
    decide
  | step g g' k rnd _ h ih => exact tick_aligned g g' k rnd ih h

/-! ## Claims, continued -/

/-- C11: dead is terminal: from every state with `alive = false`, for every
input, the iteration returns with `alive = false` and with the head position,
the segments, `head.size` and the food unchanged, and so does every sequence
of iterations. -/
theorem C11_dead_is_terminal (g : Game) (ha : g.alive = false) :
    (∀ (k : Keys) (rnd : List Sample),
      ∃ g', tick g k rnd = some g' ∧ g'.alive = false ∧ g'.head.x = g.head.x ∧
        g'.head.y = g.head.y ∧ g'.head.bodies = g.head.bodies ∧
        g'.head.size = g.head.size ∧ g'.food = g.food) ∧
    (∀ inputs : List (Keys × List Sample),
      ∃ g', ticks g inputs = some g' ∧ g'.alive = false ∧ g'.head.x = g.head.x ∧
        g'.head.y = g.head.y ∧ g'.head.bodies = g.head.bodies ∧
        g'.head.size = g.head.size ∧ g'.food = g.food) :=
  ⟨fun k rnd => ⟨_, tick_dead g k rnd ha, rfl, rfl, rfl, rfl, rfl, rfl⟩,
    fun inputs => ticks_dead inputs g ha⟩

/-- C11 at the dead state reached by Right, Up, Left, Down from the start. -/
theorem C11_dead_is_terminal_witness :
    Reachable gameDead ∧ gameDead.alive = false ∧
      ∃ g', tick gameDead (keyOf LEFT) [⟨3, 3⟩] = some g' ∧ g'.alive = false ∧
        g'.head.x = gameDead.head.x ∧ g'.head.y = gameDead.head.y ∧
        g'.head.bodies = gameDead.head.bodies ∧ g'.head.size = gameDead.head.size ∧
        g'.food = gameDead.food :=
  ⟨reachable_gameDead, rfl, (C11_dead_is_terminal gameDead rfl).1 (keyOf LEFT) [⟨3, 3⟩]⟩

/-- C12: for every head whose coordinates are multiples of 16 within the window
bounds and each of the four directions, the coordinates after `update` are
multiples of 16 again; hence the head is grid-aligned at every state reachable
from `createHead(64,64,3)`. -/
theorem C12_head_stays_aligned :
    (∀ (head : Head) (d : Direction),
      (head.x % 16 = 0 ∧ head.y % 16 = 0) →
      (0 ≤ head.x ∧ head.x < 1024 ∧ 0 ≤ head.y ∧ head.y < 768) →
      ({ head with d := d } : Head).update.x % 16 = 0 ∧
      ({ head with d := d } : Head).update.y % 16 = 0) ∧
    (∀ g : Game, Reachable g → g.head.x % 16 = 0 ∧ g.head.y % 16 = 0) :=
  ⟨fun head d h _ => update_aligned { head with d := d } h,
    fun g hr => reachable_aligned g hr⟩

/-- C12 at the bottom edge, `(64, 0)` moving DOWN wraps to `(64, 752)`, and at
the state three iterations into a run. -/
theorem C12_head_stays_aligned_witness :
    ((({ (createHead 64 0 3) with d := DOWN } : Head).update.y = 752) ∧
      ({ (createHead 64 0 3) with d := DOWN } : Head).update.x % 16 = 0 ∧
      ({ (createHead 64 0 3) with d := DOWN } : Head).update.y % 16 = 0) ∧
    (Reachable game3 ∧ game3.head.x % 16 = 0 ∧ game3.head.y % 16 = 0) :=
  ⟨⟨by decide, C12_head_stays_aligned.1 (createHead 64 0 3) DOWN (by decide) (by decide)⟩,
    reachable_game3, C12_head_stays_aligned.2 game3 reachable_game3⟩

/-- C13 as stated fails: at the dead state reached by Right, Up, Left, Down the
direction is DOWN, and an iteration with Left pressed leaves it LEFT. -/
theorem C13_counterexample :
    Reachable gameDead ∧ gameDead.alive = false ∧ gameDead.head.d = DOWN ∧
    (tick gameDead (keyOf LEFT) []).map (fun g => g.head.d) = some LEFT ∧
    tick gameDead (keyOf LEFT) [] ≠ some gameDead :=
  ⟨reachable_gameDead, rfl, rfl, by decide, by decide⟩

/-- C13 amended: in the dead state, for every combination of arrow keys, the
iteration returns the state it started from except for `head.d`, which the
input handling, run before the test of `alive`, sets as in the alive state. -/
theorem C13_dead_changes_only_direction (g : Game) (ha : g.alive = false)
    (k : Keys) (rnd : List Sample) :
    tick g k rnd = some { g with head := { g.head with d := handleInput g.head.d k } } := by
  rw [tick_dead g k rnd ha]
  cases g with
  | mk head food alive =>
    simp only at ha
    subst ha
    rfl

/-- C13 amended, at the dead state reached by Right, Up, Left, Down. -/
theorem C13_dead_changes_only_direction_witness :
    gameDead.alive = false ∧
      tick gameDead (keyOf LEFT) []
        = some { gameDead with head := { gameDead.head with d := LEFT } } :=
  ⟨rfl, C13_dead_changes_only_direction gameDead rfl (keyOf LEFT) []⟩

/-- C14: for every head with `x` a multiple of 16 in `[0, 1024)` and `y` a
multiple of 16 in `[0, 768)`, `update` moves the head one cell with wraparound
as modular arithmetic: RIGHT to `((x+16) mod 1024, y)`, LEFT to
`((x-16) mod 1024, y)`, UP to `(x, (y+16) mod 768)`, DOWN to
`(x, (y-16) mod 768)`; `x = 1008` moving RIGHT gives `0` and `x = 0` moving LEFT
gives `1008`. -/
theorem C14_wraparound_is_modular (head : Head)
    (hx : head.x % 16 = 0 ∧ 0 ≤ head.x ∧ head.x < 1024)
    (hy : head.y % 16 = 0 ∧ 0 ≤ head.y ∧ head.y < 768) :
    (({ head with d := RIGHT } : Head).update.x, ({ head with d := RIGHT } : Head).update.y)
      = ((head.x + 16) % 1024, head.y) ∧
    (({ head with d := LEFT } : Head).update.x, ({ head with d := LEFT } : Head).update.y)
      = ((head.x - 16) % 1024, head.y) ∧
    (({ head with d := UP } : Head).update.x, ({ head with d := UP } : Head).update.y)
      = (head.x, (head.y + 16) % 768) ∧
    (({ head with d := DOWN } : Head).update.x, ({ head with d := DOWN } : Head).update.y)
      = (head.x, (head.y - 16) % 768) := by
  simp only [Head.update, Head.move, Snake.size, Snake.minX, Snake.minY, Snake.maxX,
    Snake.maxY, Prod.mk.injEq]
  refine ⟨⟨?_, ?_⟩, ⟨?_, ?_⟩, ⟨?_, ?_⟩, ⟨?_, ?_⟩⟩ <;> split <;>
    first
    | rfl
    | (simp only
       omega)

/-- C14 at the edges: `(1008, 0)` moving RIGHT gives `x = 0`, `(0, 0)` moving
LEFT gives `x = 1008`. -/
theorem C14_wraparound_is_modular_witness :
    ({ (createHead 1008 0 3) with d := RIGHT } : Head).update.x = 0 ∧
    ({ (createHead 0 0 3) with d := LEFT } : Head).update.x = 1008 ∧
    (({ (createHead 1008 0 3) with d := RIGHT } : Head).update.x,
      ({ (createHead 1008 0 3) with d := RIGHT } : Head).update.y)
        = (((createHead 1008 0 3).x + 16) % 1024, (createHead 1008 0 3).y) ∧
    (({ (createHead 0 0 3) with d := LEFT } : Head).update.x,
      ({ (createHead 0 0 3) with d := LEFT } : Head).update.y)
        = (((createHead 0 0 3).x - 16) % 1024, (createHead 0 0 3).y) :=
  ⟨by decide, by decide,
    (C14_wraparound_is_modular (createHead 1008 0 3) (by decide) (by decide)).1,
    (C14_wraparound_is_modular (createHead 0 0 3) (by decide) (by decide)).2.1⟩

/-! ## `createFood` as rejection sampling -/

theorem inside_eq_true_iff (head : Head) (x y : Int) :
    head.inside x y = true ↔ head.occupies x y := by
  unfold Head.occupies
  constructor
  · intro h
    by_contra hn
    have hf : head.inside x y = false := by
      rw [inside_eq_false_iff]
      exact ⟨fun hp => hn (Or.inl hp), fun b hb hp => hn (Or.inr ⟨b, hb, hp⟩)⟩
    rw [hf] at h
    exact absurd h (by simp)
  · intro h
    cases hi : head.inside x y with
    | true => rfl
    | false =>
      have hf := (inside_eq_false_iff head x y).1 hi
      rcases h with hp | ⟨b, hb, hp⟩
      · exact absurd hp hf.1
      · exact absurd hp (hf.2 b hb)

theorem inside_eq_false_iff_not_occupies (head : Head) (x y : Int) :
    head.inside x y = false ↔ ¬ head.occupies x y := by
  rw [← inside_eq_true_iff, Bool.not_eq_true]

theorem firstFreeCell_nil (head : Head) : firstFreeCell head [] = none := rfl

theorem firstFreeCell_cons (head : Head) (s : Sample) (rest : List Sample) :
    firstFreeCell head (s :: rest)
      = if head.occupies s.cell.x s.cell.y then firstFreeCell head rest else some s.cell := by
  unfold firstFreeCell
  rw [List.find?_cons]
  by_cases h : head.occupies s.cell.x s.cell.y
  · simp [h]
  · simp [h]

theorem cell_not_negative (s : Sample) :
    (decide (s.cell.x < 0) && decide (s.cell.y < 0)) = false := by
  have hx : ¬ (s.cell.x < 0) := by
    have : (0 : Int) ≤ (s.i : Int) * Snake.size :=
      Int.mul_nonneg (Int.ofNat_nonneg _) (by decide)
    exact not_lt.2 this
  simp [hx]

/-- The loop of `createFood`: when the test holds for the current candidate the
result is the first free cell among the samples to come, otherwise it is the
candidate. -/
theorem createFoodLoop_eq (head : Head) (rnd : List Sample) :
    ∀ x y : Int,
      createFoodLoop head x y rnd
        = if head.inside x y || (decide (x < 0) && decide (y < 0)) then firstFreeCell head rnd
          else some { x := x, y := y } := by
  induction rnd with
  | nil =>
    intro x y
    simp only [createFoodLoop, firstFreeCell_nil]
  | cons s rest ih =>
    intro x y
    cases hc : (head.inside x y || (decide (x < 0) && decide (y < 0))) with
    | false => simp only [createFoodLoop, hc]; rfl
    | true =>
      simp only [createFoodLoop, hc, if_true]
      have h := ih s.cell.x s.cell.y
      rw [cell_not_negative, Bool.or_false] at h
      rw [firstFreeCell_cons]
      by_cases ho : head.occupies s.cell.x s.cell.y
      · rw [if_pos ((inside_eq_true_iff _ _ _).2 ho)] at h
        rw [if_pos ho]
        exact h
      · have hi : ¬ (head.inside s.cell.x s.cell.y = true) :=
          fun hi => ho ((inside_eq_true_iff _ _ _).1 hi)
        rw [if_neg hi] at h
        rw [if_neg ho]
        exact h

theorem createFood_eq_firstFreeCell (head : Head) (rnd : List Sample) :
    createFood head rnd = firstFreeCell head rnd := by
  unfold createFood
  rw [createFoodLoop_eq]
  simp

theorem firstFreeCell_eq_some (head : Head) (rnd : List Sample) (food : Food)
    (h : firstFreeCell head rnd = some food) :
    ∃ (pre : List Sample) (s : Sample) (post : List Sample),
      rnd = pre ++ s :: post ∧ (∀ t ∈ pre, head.occupies t.cell.x t.cell.y) ∧
      ¬ head.occupies s.cell.x s.cell.y ∧ food = s.cell := by
  unfold firstFreeCell at h
  cases hf : rnd.find? (fun s => decide (¬ head.occupies s.cell.x s.cell.y)) with
  | none =>
    rw [hf] at h
    exact absurd h (by simp)
  | some s =>
    rw [hf, Option.map_some'] at h
    injection h with h
    obtain ⟨hs, pre, post, hrnd, hpre⟩ := List.find?_eq_some.1 hf
    refine ⟨pre, s, post, hrnd, ?_, ?_, h.symm⟩
    · intro t ht
      have := hpre t ht
      simpa using this
    · simpa using hs

theorem cell_valid (s : Sample) (hv : s.valid) :
    s.cell.x % 16 = 0 ∧ s.cell.y % 16 = 0 ∧ 0 ≤ s.cell.x ∧ s.cell.x < 1024 ∧
      0 ≤ s.cell.y ∧ s.cell.y < 768 := by
  unfold Sample.valid at hv
  simp only [Sample.cell, Snake.size, Snake.maxX, Snake.maxY] at hv ⊢
  have h1 : (1024 : Int) / 16 = 64 := by decide
  have h2 : (768 : Int) / 16 = 48 := by decide
  rw [h1, h2] at hv
  omega

/-- C15: with samples `(i, j)`, `0 <= i < 64` and `0 <= j < 48`, `createFood`
draws at least one sample (it does not return on the empty sequence) and
returns the cell `(16*i, 16*j)` of the first sample in the sequence at whose
cell there is neither the head nor any segment, every earlier sample naming the
cell of the head or of a segment; it returns as soon as the sequence holds such
a sample; every food returned is therefore a grid-aligned cell with
`0 <= x < 1024` and `0 <= y < 768`, never `(-1, -1)`. -/
theorem C15_createFood_first_free_sample (head : Head) (rnd : List Sample)
    (hv : ∀ s ∈ rnd, s.valid) :
    createFood head [] = none ∧
    createFood head rnd = firstFreeCell head rnd ∧
    ((∃ s ∈ rnd, ¬ ((head.x = (s.i : Int) * 16 ∧ head.y = (s.j : Int) * 16) ∨
        ∃ b ∈ head.bodies, b.x = (s.i : Int) * 16 ∧ b.y = (s.j : Int) * 16)) →
      ∃ food, createFood head rnd = some food) ∧
    ∀ food, createFood head rnd = some food →
      (∃ (pre : List Sample) (s : Sample) (post : List Sample),
        rnd = pre ++ s :: post ∧
        (∀ t ∈ pre, (head.x = (t.i : Int) * 16 ∧ head.y = (t.j : Int) * 16) ∨
          ∃ b ∈ head.bodies, b.x = (t.i : Int) * 16 ∧ b.y = (t.j : Int) * 16) ∧
        ¬ (head.x = (s.i : Int) * 16 ∧ head.y = (s.j : Int) * 16) ∧
        (∀ b ∈ head.bodies, ¬ (b.x = (s.i : Int) * 16 ∧ b.y = (s.j : Int) * 16)) ∧
        (∀ t ∈ pre, head.inside ((t.i : Int) * 16) ((t.j : Int) * 16) = true) ∧
        head.inside ((s.i : Int) * 16) ((s.j : Int) * 16) = false ∧
        food.x = (s.i : Int) * 16 ∧ food.y = (s.j : Int) * 16) ∧
      food.x % 16 = 0 ∧ food.y % 16 = 0 ∧
      0 ≤ food.x ∧ food.x < 1024 ∧ 0 ≤ food.y ∧ food.y < 768 ∧
      ¬ (food.x = -1 ∧ food.y = -1) := by
  refine ⟨by rw [createFood_eq_firstFreeCell]; rfl, createFood_eq_firstFreeCell head rnd,
    ?_, ?_⟩
  · rintro ⟨s, hs, hfree⟩
    exact createFood_returns head rnd
      ⟨s, hs, (inside_eq_false_iff_not_occupies head _ _).2 hfree⟩
  intro food h
  rw [createFood_eq_firstFreeCell] at h
  obtain ⟨pre, s, post, hrnd, hpre, hs, hfood⟩ := firstFreeCell_eq_some head rnd food h
  have hsv : s.valid := hv s (by rw [hrnd]; simp)
  have hc := cell_valid s hsv
  subst hfood
  refine ⟨⟨pre, s, post, hrnd, hpre, fun hp => hs (Or.inl hp),
      fun b hb hp => hs (Or.inr ⟨b, hb, hp⟩),
      fun t ht => (inside_eq_true_iff head _ _).2 (hpre t ht),
      (inside_eq_false_iff_not_occupies head _ _).2 hs, rfl, rfl⟩,
    hc.1, hc.2.1, hc.2.2.1, hc.2.2.2.1, hc.2.2.2.2.1, hc.2.2.2.2.2, ?_⟩
  intro hneg
  have := hc.2.2.1
  omega

/-- C15 for the head of `game3`, at `(64, 80)` with segments at `(64, 64)`,
`(80, 64)`, `(80, 80)`, and the samples `(4, 4)`, `(4, 5)`, `(5, 5)`, `(6, 5)`:
the first names a segment, the second the head, the third a segment, and the
food is the cell `(96, 80)` of the fourth. -/
theorem C15_createFood_first_free_sample_witness :
    (∀ s ∈ [(⟨4, 4⟩ : Sample), ⟨4, 5⟩, ⟨5, 5⟩, ⟨6, 5⟩], s.valid) ∧
      createFood game3.head [⟨4, 4⟩, ⟨4, 5⟩, ⟨5, 5⟩, ⟨6, 5⟩] = some ⟨96, 80⟩ ∧
      createFood game3.head [⟨4, 4⟩, ⟨4, 5⟩, ⟨5, 5⟩, ⟨6, 5⟩]
        = firstFreeCell game3.head [⟨4, 4⟩, ⟨4, 5⟩, ⟨5, 5⟩, ⟨6, 5⟩] ∧
      ∃ (pre : List Sample) (s : Sample) (post : List Sample),
        [(⟨4, 4⟩ : Sample), ⟨4, 5⟩, ⟨5, 5⟩, ⟨6, 5⟩] = pre ++ s :: post ∧
        (∀ t ∈ pre, (game3.head.x = (t.i : Int) * 16 ∧ game3.head.y = (t.j : Int) * 16) ∨
          ∃ b ∈ game3.head.bodies, b.x = (t.i : Int) * 16 ∧ b.y = (t.j : Int) * 16) ∧
        ¬ (game3.head.x = (s.i : Int) * 16 ∧ game3.head.y = (s.j : Int) * 16) ∧
        (∀ b ∈ game3.head.bodies, ¬ (b.x = (s.i : Int) * 16 ∧ b.y = (s.j : Int) * 16)) ∧
        (∀ t ∈ pre, game3.head.inside ((t.i : Int) * 16) ((t.j : Int) * 16) = true) ∧
        game3.head.inside ((s.i : Int) * 16) ((s.j : Int) * 16) = false ∧
        (96 : Int) = (s.i : Int) * 16 ∧ (80 : Int) = (s.j : Int) * 16 :=
  ⟨by decide, by decide,
    (C15_createFood_first_free_sample game3.head [⟨4, 4⟩, ⟨4, 5⟩, ⟨5, 5⟩, ⟨6, 5⟩]
      (by decide)).2.1,
    ((C15_createFood_first_free_sample game3.head [⟨4, 4⟩, ⟨4, 5⟩, ⟨5, 5⟩, ⟨6, 5⟩]
      (by decide)).2.2.2 ⟨96, 80⟩ (by decide)).1⟩

/-- C16: for every head and every `(x, y)`, `collision(x, y)` is true exactly
when some segment of `head.bodies` has both coordinates equal to `(x, y)`, so
it is false for an empty sequence, and `inside(x, y)` is true exactly when the
head is at `(x, y)` or `collision(x, y)` is true. -/
theorem C16_collision_and_inside (head : Head) (x y : Int) :
    (head.collision x y = true ↔ ∃ b ∈ head.bodies, b.x = x ∧ b.y = y) ∧
    ({ head with bodies := [] } : Head).collision x y = false ∧
    (head.inside x y = true ↔ (head.x = x ∧ head.y = y) ∨ head.collision x y = true) := by
  refine ⟨collisionFrom_eq_true_iff x y head.bodies, rfl, ?_⟩
  unfold Head.inside
  by_cases hp : head.x = x ∧ head.y = y
  · simp [hp]
  · simp [hp]

/-! ## `createHead` and the calls on a head -/

theorem createHeadBodies_length (x y size : Int) :
    ∀ (m i0 : Nat), (createHeadBodies x y size i0 m).length = m := by
  intro m
  induction m with
  | zero =>
    intro i0
    rfl
  | succ m ih =>
    intro i0
    simp only [createHeadBodies, List.length_cons, ih]

theorem wrapInt64_eq (v : Int)
    (h : -9223372036854775808 ≤ v ∧ v < 9223372036854775808) : wrapInt64 v = v := by
  unfold wrapInt64
  omega

theorem roundF64_eq (v : Int)
    (h : -9007199254740992 ≤ v ∧ v ≤ 9007199254740992) : roundF64 v = v := by
  unfold roundF64
  have ha : v.natAbs ≤ 9007199254740992 := by omega
  simp only [ha, if_true]

theorem createHeadBodies_getElem_opt (x y size : Int) :
    ∀ (m i0 i : Nat), i < m →
      (createHeadBodies x y size i0 m)[i]?
        = some (createBody
            (roundF64 (x - roundF64 (wrapInt64 (((i0 + i : Nat) : Int) * size)))) y) := by
  intro m
  induction m with
  | zero =>
    intro i0 i hi
    exact absurd hi (Nat.not_lt_zero i)
  | succ m ih =>
    intro i0 i hi
    cases i with
    | zero => simp [createHeadBodies]
    | succ i =>
      simp only [createHeadBodies, List.getElem?_cons_succ]
      rw [ih (i0 + 1) i (Nat.lt_of_succ_lt_succ hi)]
      have he : i0 + 1 + i = i0 + (i + 1) := by omega
      rw [he]

theorem createHead_count (x y n : Int) (hn : 0 ≤ n) :
    ((createHead x y n).bodies.length : Int) = (createHead x y n).size + 1 := by
  show ((createHeadBodies x y n 0 (n + 1).toNat).length : Int) = n + 1
  rw [createHeadBodies_length]
  exact Int.toNat_of_nonneg (by omega)

theorem apply_count (head : Head) (op : Op)
    (h : (head.bodies.length : Int) = head.size + 1) :
    ((op.apply head).bodies.length : Int) = (op.apply head).size + 1 := by
  cases op with
  | update =>
    show ((head.update.bodies.length : Nat) : Int) = head.update.size + 1
    rw [update_bodies_length]
    exact h
  | grow =>
    show ((head.grow.bodies.length : Nat) : Int) = head.grow.size + 1
    rw [grow_bodies_length]
    push_cast
    rw [h]
    rfl
  | turn k => exact h

theorem applyOps_count (ops : List Op) :
    ∀ head : Head, (head.bodies.length : Int) = head.size + 1 →
      ((applyOps head ops).bodies.length : Int) = (applyOps head ops).size + 1 := by
  induction ops with
  | nil =>
    intro head h
    exact h
  | cons op rest ih =>
    intro head h
    exact ih (op.apply head) (apply_count head op h)

theorem updateChecked_eq (head : Head) : head.updateChecked = some head.update := by
  unfold Head.updateChecked Head.update
  cases head.bodies <;> rfl

/-- C17 as stated fails: in `createHead(2^54, 0, 1)` the second segment is at
`2^54 - float64(1)`, which `float64` rounds to `2^54`, so both segments are at
`2^54` and none is at `2^54 - 1`. -/
theorem C17_counterexample :
    (0 : Int) ≤ 1 ∧
    (createHead 18014398509481984 0 1).bodies
      = [createBody 18014398509481984 0, createBody 18014398509481984 0] ∧
    (createHead 18014398509481984 0 1).bodies[1]?
      ≠ some (createBody (18014398509481984 - ((1 : Nat) : Int) * 1) 0) := by
  decide

/-- C17 amended: for every `x`, `y` and `n >= 0`, `createHead(x, y, n)` is a
head at `(x, y)` with direction RIGHT, size `n` and exactly `n + 1` segments;
and whenever `n*n <= 2^53`, `x <= 2^53` and `x - n*n >= -2^53`, so that the
products `i*n` and the differences `x - i*n` are exact, the `i`-th segment from
the front (`i = 0..n`) is at `(x - i*n, y)`: the oldest one is at the head
position and the spacing is `n`, not the cell size; `createHead(64,64,3)`
holds `(64,64)`, `(61,64)`, `(58,64)`, `(55,64)`. -/
theorem C17_createHead_segments (x y n : Int) (hn : 0 ≤ n) :
    (createHead x y n).x = x ∧ (createHead x y n).y = y ∧
    (createHead x y n).d = RIGHT ∧ (createHead x y n).size = n ∧
    ((createHead x y n).bodies.length : Int) = n + 1 ∧
    (n * n ≤ 9007199254740992 → x ≤ 9007199254740992 → -9007199254740992 ≤ x - n * n →
      (∀ i : Nat, (i : Int) ≤ n →
        (createHead x y n).bodies[i]? = some (createBody (x - (i : Int) * n) y)) ∧
      (createHead x y n).bodies.head? = some (createBody x y)) ∧
    (createHead 64 64 3).bodies
      = [createBody 64 64, createBody 61 64, createBody 58 64, createBody 55 64] := by
  refine ⟨rfl, rfl, rfl, rfl, createHead_count x y n hn, ?_, by decide⟩
  intro hnn hx hxn
  have hget : ∀ i : Nat, (i : Int) ≤ n →
      (createHead x y n).bodies[i]? = some (createBody (x - (i : Int) * n) y) := by
    intro i hi
    show (createHeadBodies x y n 0 (n + 1).toNat)[i]? = _
    rw [createHeadBodies_getElem_opt x y n (n + 1).toNat 0 i (by omega)]
    have h0 : (0 : Int) ≤ (i : Int) * n := Int.mul_nonneg (Int.ofNat_nonneg i) hn
    have h1 : (i : Int) * n ≤ n * n := Int.mul_le_mul_of_nonneg_right hi hn
    have hi0 : ((0 + i : Nat) : Int) = (i : Int) := by simp
    rw [hi0, wrapInt64_eq ((i : Int) * n) (by omega), roundF64_eq ((i : Int) * n) (by omega),
      roundF64_eq (x - (i : Int) * n) (by omega)]
  refine ⟨hget, ?_⟩
  have h0 := hget 0 (by simpa using hn)
  rw [List.head?_eq_getElem?, h0]
  simp

/-- C17 amended, for `createHead(64, 64, 3)`: four segments, the third from the
front (`i = 2`) at `(58, 64)`, the oldest at the head position. -/
theorem C17_createHead_segments_witness :
    (0 : Int) ≤ 3 ∧ ((createHead 64 64 3).bodies.length : Int) = 3 + 1 ∧
      (createHead 64 64 3).bodies[2]? = some (createBody 58 64) ∧
      (createHead 64 64 3).bodies.head? = some (createBody 64 64) :=
  ⟨by decide,
    (C17_createHead_segments 64 64 3 (by decide)).2.2.2.2.1,
    ((C17_createHead_segments 64 64 3 (by decide)).2.2.2.2.2.1
      (by decide) (by decide) (by decide)).1 2 (by decide),
    ((C17_createHead_segments 64 64 3 (by decide)).2.2.2.2.2.1
      (by decide) (by decide) (by decide)).2⟩

/-- C18: for every `n >= 0`, after any sequence of `update` and `grow` calls
(and direction changes) on `createHead(x, y, n)` the number of segments equals
`head.size + 1`; and for every head `update` removes the front of a list that
is not empty, since the segment is pushed first, so the removal never fails. -/
theorem C18_count_under_update_and_grow (x y n : Int) (hn : 0 ≤ n) (ops : List Op) :
    ((applyOps (createHead x y n) ops).bodies.length : Int)
      = (applyOps (createHead x y n) ops).size + 1 ∧
    (∀ head : Head,
      head.bodies ++ [createBody head.x head.y] ≠ [] ∧
      removeFront (head.bodies ++ [createBody head.x head.y]) = some head.update.bodies ∧
      head.updateChecked = some head.update) := by
  refine ⟨applyOps_count ops _ (createHead_count x y n hn), ?_⟩
  intro head
  refine ⟨by simp, ?_, updateChecked_eq head⟩
  unfold Head.update
  cases head.bodies <;> rfl

/-- C18 for `createHead(64, 64, 3)` after update, grow, update, grow, grow:
seven segments and size six. -/
theorem C18_count_under_update_and_grow_witness :
    (0 : Int) ≤ 3 ∧
      (applyOps (createHead 64 64 3)
        [Op.update, Op.grow, Op.update, Op.grow, Op.grow]).bodies.length = 7 ∧
      (applyOps (createHead 64 64 3)
        [Op.update, Op.grow, Op.update, Op.grow, Op.grow]).size = 6 ∧
      ((applyOps (createHead 64 64 3)
        [Op.update, Op.grow, Op.update, Op.grow, Op.grow]).bodies.length : Int)
        = (applyOps (createHead 64 64 3)
            [Op.update, Op.grow, Op.update, Op.grow, Op.grow]).size + 1 :=
  ⟨by decide, by decide, by decide,
    (C18_count_under_update_and_grow 64 64 3 (by decide)
      [Op.update, Op.grow, Op.update, Op.grow, Op.grow]).1⟩

end Snake
